import Mathlib

/-!
Shallow embedding of the invoice ingestion and delivery pipeline of the
PPV-Rechnung-Versenden repository (src/app), covering:

* `invoice_parser.py`: date-string parsing (`parse_date_string`, including the
  CPython `strptime`-style matching with regex backtracking over digit widths,
  and the 8-digit-run fallback), the ordered date-query loop of
  `parse_invoice_date`, and the record assembly of `parse_invoice`.
* `models.py`: the `EmailLog` store (`create`, `prune_old_entries`,
  `MAX_EMAIL_LOGS`).
* `scheduler.py`: `render_email_template` (Python `str.format_map` over a
  `_SafeDict`, with the literal-replace fallback), `_process_single_invoice`
  and `process_invoices` (outcomes, counters, log writes, mail/move effects,
  dry-run rollback).
* `filesystem.py`: `list_files` on the local and SMB providers.

External collaborators (PDF/XML structure, the SQL engine, the Graph mail
transport, the OS file system, the clock) are modelled as explicit inputs:
per-file query results, an effect trace, and outcome-valued environment
fields, so every function here is executable and total.
-/

/-- A calendar date as produced by Python `datetime.date`. -/
structure PDate where
  year : Nat
  month : Nat
  day : Nat
deriving DecidableEq, Repr

/-- Python `calendar.isleap` / `datetime` leap-year rule. -/
def isLeapYear (y : Nat) : Bool :=
  y % 4 == 0 && (y % 100 != 0 || y % 400 == 0)

/-- Days in a month, as validated by the `datetime.date` constructor. -/
def daysInMonth (y m : Nat) : Nat :=
  if m = 2 then (if isLeapYear y then 29 else 28)
  else if m = 4 ∨ m = 6 ∨ m = 9 ∨ m = 11 then 30
  else 31

/-- `datetime.date(y, m, d)`: validates ranges (MINYEAR=1, MAXYEAR=9999),
returning `none` where Python raises `ValueError`. -/
def mkDate (y m d : Nat) : Option PDate :=
  if 1 ≤ y ∧ y ≤ 9999 ∧ 1 ≤ m ∧ m ≤ 12 ∧ 1 ≤ d ∧ d ≤ daysInMonth y m then
    some ⟨y, m, d⟩
  else none

/-- Python `date` comparison is lexicographic on (year, month, day). -/
def PDate.ltb (a b : PDate) : Bool :=
  a.year < b.year ||
    (a.year == b.year &&
      (a.month < b.month || (a.month == b.month && a.day < b.day)))

/-- Python `str.strip()` with no argument: drop leading and trailing
whitespace. -/
def pyStrip (s : String) : String :=
  ⟨((s.data.dropWhile Char.isWhitespace).reverse.dropWhile
      Char.isWhitespace).reverse⟩

/-- Numeric value of a digit run (most significant first). -/
def digitsVal (l : List Char) : Nat :=
  l.foldl (fun a c => a * 10 + (c.toNat - 48)) 0

/-- Take exactly `n` leading digits (used for `%Y`, which CPython's
`_strptime` compiles to the regex `(\d\d\d\d)`, and for the 8-digit
fallback). -/
def takeDigitsExact (n : Nat) (l : List Char) : Option (Nat × List Char) :=
  let pre := l.take n
  if pre.length = n ∧ pre.all Char.isDigit then some (digitsVal pre, l.drop n)
  else none

/-- One directive of a `strptime` format string: `%Y`, `%m`, `%d`, or a
literal character. -/
inductive FmtItem where
  | year
  | mon
  | day
  | lit (c : Char)
deriving DecidableEq, Repr

/-- The ways `%Y` can consume input: CPython compiles it to `(\d\d\d\d)`,
exactly four digits. -/
def yearAlts (l : List Char) : List (Nat × List Char) :=
  (takeDigitsExact 4 l).toList

/-- The ways `%m` can consume input, in the order of CPython's compiled
alternation `(1[0-2]|0[1-9]|[1-9])`. -/
def monthAlts (l : List Char) : List (Nat × List Char) :=
  (match l with
   | '1' :: c :: rest =>
     if '0' ≤ c ∧ c ≤ '2' then [(10 + (c.toNat - 48), rest)] else []
   | _ => []) ++
  (match l with
   | '0' :: c :: rest =>
     if '1' ≤ c ∧ c ≤ '9' then [(c.toNat - 48, rest)] else []
   | _ => []) ++
  (match l with
   | c :: rest => if '1' ≤ c ∧ c ≤ '9' then [(c.toNat - 48, rest)] else []
   | _ => [])

/-- The ways `%d` can consume input, in the order of CPython's compiled
alternation `(3[0-1]|[1-2]\d|0[1-9]|[1-9]| [1-9])`. -/
def dayAlts (l : List Char) : List (Nat × List Char) :=
  (match l with
   | '3' :: c :: rest =>
     if '0' ≤ c ∧ c ≤ '1' then [(30 + (c.toNat - 48), rest)] else []
   | _ => []) ++
  (match l with
   | c1 :: c2 :: rest =>
     if ('1' ≤ c1 ∧ c1 ≤ '2') ∧ c2.isDigit then
       [((c1.toNat - 48) * 10 + (c2.toNat - 48), rest)]
     else []
   | _ => []) ++
  (match l with
   | '0' :: c :: rest =>
     if '1' ≤ c ∧ c ≤ '9' then [(c.toNat - 48, rest)] else []
   | _ => []) ++
  (match l with
   | c :: rest => if '1' ≤ c ∧ c ≤ '9' then [(c.toNat - 48, rest)] else []
   | _ => []) ++
  (match l with
   | ' ' :: c :: rest =>
     if '1' ≤ c ∧ c ≤ '9' then [(c.toNat - 48, rest)] else []
   | _ => [])

/-- Match a format against input the way the regex CPython `_strptime`
compiles it does: each directive's alternatives are tried in regex order
with backtracking into earlier directives on failure, literals must match
exactly, and the whole input must be consumed (`strptime` raises on
unconverted data). -/
def matchFmtAux : List FmtItem → List Char → Option Nat → Option Nat →
    Option Nat → Option (Nat × Nat × Nat)
  | [], l, y, m, d =>
    match l, y, m, d with
    | [], some y, some m, some d => some (y, m, d)
    | _, _, _, _ => none
  | .lit c :: items, l, y, m, d =>
    match l with
    | [] => none
    | x :: xs => if x = c then matchFmtAux items xs y m d else none
  | .year :: items, l, _, m, d =>
    (yearAlts l).findSome? fun p => matchFmtAux items p.2 (some p.1) m d
  | .mon :: items, l, y, _, d =>
    (monthAlts l).findSome? fun p => matchFmtAux items p.2 y (some p.1) d
  | .day :: items, l, y, m, _ =>
    (dayAlts l).findSome? fun p => matchFmtAux items p.2 y m (some p.1)

/-- `datetime.strptime(s, fmt).date()` for a year/month/day format. -/
def strptimeYMD (items : List FmtItem) (l : List Char) : Option PDate :=
  (matchFmtAux items l none none none).bind fun v => mkDate v.1 v.2.1 v.2.2

/-- Format `%Y%m%d` (compact numeric, ZUGFeRD format code 102). -/
def fmtCompact : List FmtItem := [.year, .mon, .day]

/-- Format `%Y-%m-%d` (ISO). -/
def fmtIso : List FmtItem := [.year, .lit '-', .mon, .lit '-', .day]

/-- Format `%d.%m.%Y`. -/
def fmtDots : List FmtItem := [.day, .lit '.', .mon, .lit '.', .year]

/-- Format `%d/%m/%Y`. -/
def fmtSlash : List FmtItem := [.day, .lit '/', .mon, .lit '/', .year]

/-- `re.search(r'(\d{8})', s)`: the first position followed by eight digits,
returning those eight characters. -/
def findEightDigits : List Char → Option (List Char)
  | [] => none
  | c :: rest =>
    let pre := (c :: rest).take 8
    if pre.length = 8 ∧ pre.all Char.isDigit then some pre
    else findEightDigits rest

/-- `invoice_parser.parse_date_string`: strip, try the four formats in
order, then fall back to interpreting the first 8-digit run as `YYYYMMDD`. -/
def parse_date_string (s : String) : Option PDate :=
  let l := (pyStrip s).data
  match [fmtCompact, fmtIso, fmtDots, fmtSlash].findSome?
      (fun f => strptimeYMD f l) with
  | some d => some d
  | none => (findEightDigits l).bind fun e => strptimeYMD fmtCompact e

/-- `invoice_parser.parse_invoice_date`, shallowly embedded over the results
of its seven date XPath queries (the lxml evaluation itself is external): for
each query in order, if it returned any text node, strip the first one and
try `parse_date_string`; only a successful parse returns `(date, raw)` —
otherwise the loop continues, and exhaustion yields `(None, "")`. -/
def parse_invoice_date_queries : List (List String) → Option PDate × String
  | [] => (none, "")
  | q :: rest =>
    match q with
    | [] => parse_invoice_date_queries rest
    | r :: _ =>
      let ds := pyStrip r
      match parse_date_string ds with
      | some d => (some d, ds)
      | none => parse_invoice_date_queries rest

/-- `invoice_parser.InvoiceData`. -/
structure InvoiceData where
  invoice_date : Option PDate
  invoice_date_str : String
  recipient_email : Option String
  invoice_number : Option String
  buyer_name : Option String
  raw_xml : Option String := none
deriving DecidableEq, Repr

/-- `invoice_parser.parse_invoice`, record-assembly step: the date field pair
comes from `parse_invoice_date` (modelled over its query results); the other
field parsers are independent and their results are inputs here. -/
def parse_invoice_model (dateQueries : List (List String))
    (recipient_email invoice_number buyer_name : Option String)
    (xml : String) : InvoiceData :=
  let p := parse_invoice_date_queries dateQueries
  { invoice_date := p.1
    invoice_date_str := p.2
    recipient_email := recipient_email
    invoice_number := invoice_number
    buyer_name := buyer_name
    raw_xml := some xml }

/-- Python `str.replace(old, new)` on character lists: replace all
non-overlapping occurrences left to right. The `fuel` argument makes the
recursion structural; each step consumes at least one character, so
`fuel = l.length` computes the full replacement (`old` is assumed
non-empty; the scheduler only replaces the pattern `".pdf"`). -/
def pyReplaceF (pat repl : List Char) : Nat → List Char → List Char
  | _, [] => []
  | 0, l => l
  | fuel + 1, c :: rest =>
    if pat.isPrefixOf (c :: rest) ∧ pat ≠ [] then
      repl ++ pyReplaceF pat repl fuel ((c :: rest).drop pat.length)
    else
      c :: pyReplaceF pat repl fuel rest

/-- Python `str.replace` lifted to strings. -/
def pyReplace (s pat repl : String) : String :=
  ⟨pyReplaceF pat.data repl.data s.data.length s.data⟩

set_option linter.unusedVariables false in
/-- `scheduler.render_email_template`, translated from the source as it
stands: an empty template returns `""` at once; any non-empty template then
evaluates `_SafeDict({...})`, which passes the freshly built dict INSTANCE
as `defaultdict`'s first positional argument — CPython rejects that with
`TypeError: first argument must be callable or None` — and this happens
before the `try`, so the exception escapes the function (`.error` carries
`str(e)`). The `format_map`-with-fallback code below that line is
unreachable. -/
def render_email_template (template : String) (invoice_data : InvoiceData)
    (filename : String) (today : PDate) : Except String String :=
  if template = "" then .ok ""
  else .error "first argument must be callable or None"

/-- A row of the `email_logs` table (`models.EmailLog`). `timestamp` is the
UTC creation instant, abstracted to a `Nat`. -/
structure EmailLog where
  id : Nat
  timestamp : Nat
  filename : String
  invoice_date : String
  recipient_email : String
  subject : String
  status : String
  error_message : Option String
deriving DecidableEq, Repr

/-- `models.MAX_EMAIL_LOGS`. -/
def MAX_EMAIL_LOGS : Nat := 100

/-- The `ORDER BY timestamp ASC` key used by `prune_old_entries`. -/
def tsLe (a b : EmailLog) : Prop := a.timestamp ≤ b.timestamp

instance : DecidableRel tsLe := fun a b => Nat.decLe a.timestamp b.timestamp

instance : IsTotal EmailLog tsLe := ⟨fun a b => Nat.le_total a.timestamp b.timestamp⟩

instance : IsTrans EmailLog tsLe := ⟨fun _ _ _ h h2 => Nat.le_trans h h2⟩

/-- `EmailLog.prune_old_entries`: if the table holds more than
`MAX_EMAIL_LOGS` rows, delete the `count - MAX_EMAIL_LOGS` rows whose ids
come first under `ORDER BY timestamp ASC` (ties among equal timestamps are
backend-dependent in SQLite; modelled by insertion sort). -/
def EmailLog.prune_old_entries (db : List EmailLog) : List EmailLog :=
  let count := db.length
  if MAX_EMAIL_LOGS < count then
    let entries_to_delete := (List.insertionSort tsLe db).take (count - MAX_EMAIL_LOGS)
    let ids_to_delete := entries_to_delete.map (·.id)
    db.filter (fun e => decide (e.id ∉ ids_to_delete))
  else db

/-- `EmailLog.create`: insert a row (the flush assigns the next primary key,
modelled as max id + 1), then synchronously prune; returns the new table
state and the created row. -/
def EmailLog.create (db : List EmailLog)
    (filename invoice_date recipient_email subject status : String)
    (error_message : Option String) (now : Nat) : List EmailLog × EmailLog :=
  let newId := (db.map (·.id)).foldr max 0 + 1
  let log_entry : EmailLog :=
    { id := newId, timestamp := now, filename := filename
      invoice_date := invoice_date, recipient_email := recipient_email
      subject := subject, status := status, error_message := error_message }
  (EmailLog.prune_old_entries (db ++ [log_entry]), log_entry)

def dbW : List EmailLog := [⟨1, 1, "a", "", "", "", "sent", none⟩]

/-- A store of 105 entries with ids and timestamps 1..105. -/
def db105 : List EmailLog :=
  (List.range 105).map (fun i => ⟨i + 1, i + 1, "", "", "", "", "sent", none⟩)

/-- The sixth-oldest entry of `db105`. -/
def entry6 : EmailLog := ⟨6, 6, "", "", "", "", "sent", none⟩

/-- `posixpath.join` for two components, as used by
`LocalFileSystem.join_path` via `os.path.join`. -/
def osPathJoin (a b : String) : String :=
  if b.data.head? = some '/' then b
  else if a = "" ∨ a.data.getLast? = some '/' then a ++ b
  else a ++ "/" ++ b

/-- `posixpath.basename`: everything after the last `/`. -/
def osPathBasename (s : String) : String :=
  ⟨s.data.foldl (fun acc c => if c = '/' then [] else acc ++ [c]) []⟩

/-- Last index of `c` in `l`, if any (`str.rfind`). -/
def lastIdxOf (c : Char) (l : List Char) : Option Nat :=
  (l.foldl (fun (st : Nat × Option Nat) x =>
    (st.1 + 1, if x = c then some st.1 else st.2)) (0, none)).2

/-- The index where `posixpath.splitext` splits: the position of the last
dot, provided it lies after the last separator and at least one non-dot
character stands between them (leading dots of the basename never start an
extension); otherwise the whole length (no extension). -/
def splitextPos (l : List Char) : Nat :=
  match lastIdxOf '.' l with
  | none => l.length
  | some d =>
    let s0 := match lastIdxOf '/' l with
      | none => 0
      | some i => i + 1
    if s0 ≤ d ∧ ((l.drop s0).take (d - s0)).any (fun x => x != '.') then d
    else l.length

/-- `os.path.splitext`. -/
def splitext (s : String) : String × String :=
  let n := splitextPos s.data
  (⟨s.data.take n⟩, ⟨s.data.drop n⟩)

/-- `fnmatch` translation restricted to the pattern features the app uses
(`*`, `?`, literal characters; character classes are treated as literals).
The `fuel` argument makes the recursion structural; every step consumes a
pattern or subject character, so `p.length + s.length + 1` fuel always
suffices. -/
def globMatchF : Nat → List Char → List Char → Bool
  | 0, p, s => p.isEmpty && s.isEmpty
  | fuel + 1, p, s =>
    match p with
    | [] => s.isEmpty
    | '*' :: ps =>
      globMatchF fuel ps s ||
        (match s with
         | [] => false
         | _ :: s2 => globMatchF fuel ('*' :: ps) s2)
    | '?' :: ps =>
      (match s with
       | [] => false
       | _ :: s2 => globMatchF fuel ps s2)
    | c :: ps =>
      (match s with
       | [] => false
       | x :: s2 => c = x && globMatchF fuel ps s2)

/-- `fnmatch.fnmatch(name, pattern)` (case-sensitive, as on posix). -/
def fnmatchB (pattern nm : List Char) : Bool :=
  globMatchF (pattern.length + nm.length + 1) pattern nm

/-- `LocalFileSystem.list_files`: the local directory tree is an explicit
world mapping a path to its entry names, `none` when the path does not
exist. A missing path short-circuits to `[]` before globbing; otherwise
`glob.glob(os.path.join(path, pattern))` returns the joined paths of the
matching entries (glob hides dot-entries unless the pattern itself starts
with a dot). -/
def LocalFileSystem_list_files (world : String → Option (List String))
    (path pattern : String) : List String :=
  match world path with
  | none => []
  | some names =>
    (names.filter (fun n =>
      fnmatchB pattern.data n.data &&
        (!(n.data.head? = some '.') || (pattern.data.head? = some '.')))).map
      (fun n => osPathJoin path n)

/-- `SMBFileSystem._get_smb_path`: forward slashes become backslashes,
leading backslashes are stripped, and the result is anchored as a UNC path
(reusing the given host prefix when the path already starts with it). -/
def smbPath (host share path : String) : String :=
  let p1 := pyReplace path "/" "\\"
  let p2 : String := ⟨p1.data.dropWhile (fun c => c = '\\')⟩
  if host.data.isPrefixOf p2.data then "\\" ++ "\\" ++ p2
  else "\\" ++ "\\" ++ host ++ "\\" ++ share ++ "\\" ++ p2

/-- `SMBFileSystem.list_files`: `smbclient.listdir` over the UNC path is the
external world, returning either the entry names or the exception message;
any exception (a missing path in particular) is caught and yields the files
collected so far — the empty list. Matches are filtered with `fnmatch` and
joined with the original (forward-slash) path. -/
def SMBFileSystem_list_files
    (listdir : String → Except String (List String))
    (host share path pattern : String) : List String :=
  match listdir (smbPath host share path) with
  | .error _ => []
  | .ok names =>
    (names.filter (fun n => fnmatchB pattern.data n.data)).map
      (fun n => osPathJoin path n)

/-- Per-file terminal outcome of `_process_single_invoice`. -/
inductive Outcome where
  | sent
  | skipped
  | dry_send
  | failed
deriving DecidableEq, Repr

/-- Externally visible side effects of one file's processing: a mail
transport invocation (`GraphMailService.send_email`, successful or not) or
a file-move attempt (`fs.move_file`). -/
inductive Effect where
  | mailSend (to_email subject body attachment_name : String)
  | moveFile (src dst : String)
deriving DecidableEq, Repr

/-- The external world of one `_process_single_invoice` call:
`fs.read_file` returns content or raises; `parse_invoice` returns an
`InvoiceData` or raises `ZUGFeRDParseError`; `send_email` succeeds or
raises a `GraphMailError` with a message; `fs.exists(target_path)` says
whether a same-named file sits in the target folder; `fs.move_file`
succeeds or raises; `moveTs` is `datetime.now().strftime("%Y%m%d_%H%M%S")`
at rename time. -/
structure SingleEnv where
  readResult : Except String String
  parseResult : Except String InvoiceData
  sendResult : Option String
  targetExists : Bool
  moveResult : Option String
  moveTs : String
deriving Repr

/-- The dedup query of `_process_single_invoice`: does a `sent` log row for
this filename and recipient exist? -/
def alreadySentQuery (db : List EmailLog) (filename remail : String) : Bool :=
  db.any (fun l =>
    l.filename == filename && l.recipient_email == remail && l.status == "sent")

/-- Result of one `_process_single_invoice` call as the batch loop sees
it: a returned terminal outcome, or an exception propagating out of the
call into the wrapper's catch-all `except`. In the source as it stands,
rendering a non-empty template always raises this way (see
`render_email_template`). -/
inductive SingleResult where
  | done (o : Outcome)
  | raised (msg : String)
deriving DecidableEq, Repr

/-- `InvoiceProcessor._process_single_invoice`, step for step: read, parse,
recipient check, dedup (unless `allow_resend`), date eligibility (unless
`force_send`), subject and body rendering — which RAISES out of the call
whenever the template is non-empty, see `render_email_template` — then the
dry-run short-circuit, send, `sent` log write, move with timestamp
disambiguation, and the post-move-failure in-place log update. Returns the
outcome (or the escaping exception), the session's log table afterwards,
and the emitted effects. -/
def process_single_invoice (db : List EmailLog) (env : SingleEnv)
    (file_path filename target_folder email_template : String)
    (today : PDate) (force_send send_past_dates dry_run allow_resend : Bool)
    (now : Nat) : SingleResult × List EmailLog × List Effect :=
  let subject_text := pyReplace filename ".pdf" ""
  match env.readResult with
  | .error e =>
    (.done .failed,
     if dry_run then db
     else (EmailLog.create db filename "" "" subject_text "failed"
       (some ("Datei konnte nicht gelesen werden: " ++ e)) now).1,
     [])
  | .ok _pdf_content =>
    match env.parseResult with
    | .error e =>
      (.done .failed,
       if dry_run then db
       else (EmailLog.create db filename "" "" (pyReplace filename ".pdf" "")
         "failed" (some ("Parse error: " ++ e)) now).1,
       [])
    | .ok invoice_data =>
      match invoice_data.recipient_email with
      | none =>
        (.done .failed,
         if dry_run then db
         else (EmailLog.create db filename invoice_data.invoice_date_str ""
           subject_text "failed" (some "No recipient email found in invoice")
           now).1,
         [])
      | some remail =>
        if ¬allow_resend ∧ alreadySentQuery db filename remail then
          (.done .skipped, db, [])
        else
          let sendPhase : Unit → SingleResult × List EmailLog × List Effect :=
            fun _ =>
              match render_email_template subject_text invoice_data filename
                  today with
              | .error e => (.raised e, db, [])
              | .ok subject2 =>
                match render_email_template email_template invoice_data
                    filename today with
                | .error e => (.raised e, db, [])
                | .ok email_body =>
                  if dry_run then (.done .dry_send, db, [])
                  else
                    match env.sendResult with
                    | some e =>
                      (.done .failed,
                       (EmailLog.create db filename
                         invoice_data.invoice_date_str remail subject2
                         "failed" (some ("Send error: " ++ e)) now).1,
                       [.mailSend remail subject2 email_body filename])
                    | none =>
                      let cr := EmailLog.create db filename
                        invoice_data.invoice_date_str remail subject2 "sent"
                        none now
                      let target_path :=
                        if env.targetExists then
                          let be := splitext filename
                          osPathJoin target_folder
                            (be.1 ++ "_" ++ env.moveTs ++ be.2)
                        else osPathJoin target_folder filename
                      let effs := [Effect.mailSend remail subject2 email_body
                        filename, Effect.moveFile file_path target_path]
                      match env.moveResult with
                      | some e =>
                        (.done .sent,
                         cr.1.map (fun x =>
                           if x.id = cr.2.id then
                             { x with
                               status := "sent",
                               error_message :=
                                 some ("Datei nicht verschoben: " ++ e) }
                           else x),
                         effs)
                      | none => (.done .sent, cr.1, effs)
          if force_send then sendPhase ()
          else
            match invoice_data.invoice_date with
            | none => (.done .skipped, db, [])
            | some idate =>
              if PDate.ltb today idate then (.done .skipped, db, [])
              else if ¬send_past_dates ∧ idate ≠ today then
                (.done .skipped, db, [])
              else sendPhase ()

/-- The `results` dict accumulated by `process_invoices`. -/
structure RunResults where
  processed : Nat
  sent : Nat
  skipped : Nat
  failed : Nat
  would_send : Nat
  errors : List String
deriving DecidableEq, Repr

/-- One candidate file of a batch: its listed path, the external world of
its per-file processing, and — when the wrapper's catch-all `except` fires
instead — the unexpected exception's message. -/
structure FileItem where
  file_path : String
  env : SingleEnv
  unexpected : Option String
deriving Repr

/-- Specification-level trace entry recorded per processed file (not part
of the Python state; used to state count invariants). -/
structure FileTrace where
  filename : String
  outcome : Outcome
  unexpected : Option String
deriving DecidableEq, Repr

/-- The per-batch settings snapshot and flags of `process_invoices`. -/
structure BatchCtx where
  target_folder : String
  email_template : String
  today : PDate
  force_send : Bool
  send_past_dates : Bool
  dry_run : Bool
  allow_resend : Bool
  selected_files : Option (List String)
  now : Nat
deriving DecidableEq, Repr

/-- The `for file_path in invoice_files` loop of `process_invoices`:
selection filter, counter updates per outcome, the catch-all `except` path
(which is the only one appending to `errors`), threading of the session's
log table, and accumulation of effects and of the specification trace. -/
def process_invoices_loop (ctx : BatchCtx) :
    List FileItem → RunResults → List EmailLog → List Effect →
    List FileTrace →
    RunResults × List EmailLog × List Effect × List FileTrace
  | [], res, db, effs, trace => (res, db, effs, trace)
  | item :: rest, res, db, effs, trace =>
    let filename := osPathBasename item.file_path
    let selectedOk :=
      match ctx.selected_files with
      | none => true
      | some sel => decide (filename ∈ sel)
    if selectedOk then
      let res0 := { res with processed := res.processed + 1 }
      match item.unexpected with
      | some e =>
        let res1 := { res0 with
          failed := res0.failed + 1,
          errors := res0.errors ++ [filename ++ ": " ++ e] }
        let db1 :=
          if ctx.dry_run then db
          else (EmailLog.create db filename "" ""
            (pyReplace filename ".pdf" "") "failed"
            (some ("Unerwarteter Fehler: " ++ e)) ctx.now).1
        process_invoices_loop ctx rest res1 db1 effs
          (trace ++ [⟨filename, .failed, some e⟩])
      | none =>
        let r := process_single_invoice db item.env item.file_path filename
          ctx.target_folder ctx.email_template ctx.today ctx.force_send
          ctx.send_past_dates ctx.dry_run ctx.allow_resend ctx.now
        match r.1 with
        | .raised e =>
          let res1 := { res0 with
            failed := res0.failed + 1,
            errors := res0.errors ++ [filename ++ ": " ++ e] }
          let db1 :=
            if ctx.dry_run then r.2.1
            else (EmailLog.create r.2.1 filename "" ""
              (pyReplace filename ".pdf" "") "failed"
              (some ("Unerwarteter Fehler: " ++ e)) ctx.now).1
          process_invoices_loop ctx rest res1 db1 (effs ++ r.2.2)
            (trace ++ [⟨filename, .failed, some e⟩])
        | .done o =>
          let res1 :=
            match o with
            | .sent => { res0 with
                sent := res0.sent + 1,
                would_send := res0.would_send + 1 }
            | .dry_send => { res0 with would_send := res0.would_send + 1 }
            | .skipped => { res0 with skipped := res0.skipped + 1 }
            | .failed => { res0 with failed := res0.failed + 1 }
          process_invoices_loop ctx rest res1 r.2.1 (effs ++ r.2.2)
            (trace ++ [⟨filename, o, none⟩])
    else
      process_invoices_loop ctx rest res db effs trace

/-- `InvoiceProcessor.process_invoices`: target-folder preparation and file
listing are batch-fatal early returns with zero counts; otherwise the
per-file loop runs, and at the session boundary a dry-run batch rolls back
(the persisted table stays `db0`) while a normal batch commits the final
session table. Returns (results, persisted log table, effects, trace). -/
def process_invoices (db0 : List EmailLog) (ctx : BatchCtx)
    (ensure_target_ok : Bool)
    (list_result : Except String (List FileItem)) :
    RunResults × List EmailLog × List Effect × List FileTrace :=
  let results0 : RunResults := ⟨0, 0, 0, 0, 0, []⟩
  if ¬ensure_target_ok then (results0, db0, [], [])
  else
    match list_result with
    | .error _ => (results0, db0, [], [])
    | .ok files =>
      if files.isEmpty then (results0, db0, [], [])
      else
        let r := process_invoices_loop ctx files results0 db0 [] []
        (r.1, if ctx.dry_run then db0 else r.2.1, r.2.2.1, r.2.2.2)

def sentOrDry (t : FileTrace) : Bool :=
  decide (t.outcome = .sent) || decide (t.outcome = .dry_send)

def isSent (t : FileTrace) : Bool := decide (t.outcome = .sent)

def isFailed (t : FileTrace) : Bool := decide (t.outcome = .failed)

def traceErrMsg (t : FileTrace) : Option String :=
  t.unexpected.map (fun e => t.filename ++ ": " ++ e)

def invToday : InvoiceData :=
  ⟨some ⟨2024, 1, 2⟩, "20240102", some "kunde@example.com", some "42",
    some "Kunde", none⟩

def envSendOkMoveFail : SingleEnv :=
  ⟨.ok "PDF", .ok invToday, none, false, some "disk full", "20240102_120000"⟩

def envSendOkMoveFailDup : SingleEnv :=
  ⟨.ok "PDF", .ok invToday, none, true, some "disk full", "20240102_120000"⟩

def ctxDry : BatchCtx :=
  ⟨"/tgt", "Body", ⟨2024, 1, 2⟩, false, false, true, false, none, 7⟩

def ctxNorm : BatchCtx :=
  ⟨"/tgt", "Body", ⟨2024, 1, 2⟩, false, false, false, false, none, 7⟩

def fileOk : FileItem :=
  ⟨"/src/RE-1.pdf",
   ⟨.ok "PDF", .ok invToday, none, false, none, "20240102_120000"⟩, none⟩

def fileReadFail : FileItem :=
  ⟨"/src/RE-2.pdf", ⟨.error "boom", .error "no xml", none, false, none, "ts"⟩,
   none⟩

/-- C7: the four supported textual forms of 15 December 2023 all parse to
the same calendar date, the formats being tried in the listed order. -/
theorem four_formats_same_date :
    parse_date_string "20231215" = some ⟨2023, 12, 15⟩ ∧
    parse_date_string "2023-12-15" = some ⟨2023, 12, 15⟩ ∧
    parse_date_string "15.12.2023" = some ⟨2023, 12, 15⟩ ∧
    parse_date_string "15/12/2023" = some ⟨2023, 12, 15⟩ := by
  refine ⟨by decide, by decide, by decide, by decide⟩

theorem date_queries_raw_kept_only_on_success (qs : List (List String)) :
    parse_invoice_date_queries qs = (none, "") ∨
    ∃ d, (parse_invoice_date_queries qs).1 = some d ∧
      parse_date_string (parse_invoice_date_queries qs).2 = some d := by
  induction qs with
  | nil => exact Or.inl rfl
  | cons q rest ih =>
    cases q with
    | nil => simpa only [parse_invoice_date_queries] using ih
    | cons r t =>
      cases h : parse_date_string (pyStrip r) with
      | none => simpa only [parse_invoice_date_queries, h] using ih
      | some d =>
        refine Or.inr ⟨d, ?_, ?_⟩
        · simp only [parse_invoice_date_queries, h]
        · simp only [parse_invoice_date_queries, h]

/-- Amended C4: when the text found by a date query matches no format (and
the 8-digit fallback also fails), the loop moves on to later queries; if no
query text parses, the record ends with `invoice_date = None` and
`invoice_date_raw` EMPTY — the raw text is retained only when parsing
succeeded, in which case it parses to exactly the recorded date. -/
theorem invoice_record_raw_iff_parse (dateQueries : List (List String))
    (re num nm : Option String) (xml : String) :
    ((parse_invoice_model dateQueries re num nm xml).invoice_date = none ∧
      (parse_invoice_model dateQueries re num nm xml).invoice_date_str = "") ∨
    ∃ d, (parse_invoice_model dateQueries re num nm xml).invoice_date = some d ∧
      parse_date_string
        ((parse_invoice_model dateQueries re num nm xml).invoice_date_str)
        = some d := by
  have h := date_queries_raw_kept_only_on_success dateQueries
  rcases h with h | ⟨d, h1, h2⟩
  · left
    constructor
    · simp only [parse_invoice_model, h]
    · simp only [parse_invoice_model, h]
  · right
    exact ⟨d, h1, h2⟩

/-- Counterexample to C4: the first date query yields the text "hello",
which matches no supported format, yet `invoice_date_raw` comes out as the
empty string instead of keeping "hello". -/
theorem unparsable_date_text_discarded_cex :
    parse_date_string "hello" = none ∧
    (parse_invoice_model [["hello"]] (some "a@b.c") none none "x").invoice_date
        = none ∧
    (parse_invoice_model [["hello"]] (some "a@b.c") none none "x").invoice_date_str
        = "" ∧
    ("" : String) ≠ "hello" := by
  refine ⟨by decide, by decide, by decide, by decide⟩

/-- C9 (code bug): in the source as it stands, `render_email_template`
raises for EVERY non-empty template — `_SafeDict({...})` passes a dict
instance as `defaultdict`'s first positional argument and CPython raises
`TypeError: first argument must be callable or None` before the `try` — so
rendering is not total, known placeholders are never substituted, and
unknown placeholders are never resolved to the empty string; only the
empty template renders (to `""`). -/
theorem render_raises_on_nonempty_template :
    render_email_template "Hallo \x7binvoice_number\x7d" invToday "RE-1.pdf"
      ⟨2024, 1, 2⟩ = .error "first argument must be callable or None" ∧
    render_email_template "\x7bunknown\x7d" invToday "RE-1.pdf" ⟨2024, 1, 2⟩
      = .error "first argument must be callable or None" ∧
    render_email_template "" invToday "RE-1.pdf" ⟨2024, 1, 2⟩ = .ok "" := by
  refine ⟨rfl, rfl, rfl⟩

theorem le_foldr_max (l : List Nat) : ∀ i ∈ l, i ≤ l.foldr max 0 := by
  induction l with
  | nil => intro i h; cases h
  | cons a t ih =>
    intro i h
    cases h with
    | head => exact Nat.le_max_left _ _
    | tail _ h => exact Nat.le_trans (ih _ h) (Nat.le_max_right _ _)

theorem filter_not_length (p : α → Bool) (l : List α) :
    (l.filter (fun a => !p a)).length = l.length - (l.filter p).length := by
  induction l with
  | nil => rfl
  | cons a t ih =>
    have hle := List.length_filter_le p t
    by_cases h : p a
    · simp [List.filter_cons, h, ih]
    · simp [List.filter_cons, h, ih]
      omega

/-- Pruning only ever removes rows; it never adds any. -/
theorem mem_of_mem_prune {l : List EmailLog} {x : EmailLog}
    (h : x ∈ EmailLog.prune_old_entries l) : x ∈ l := by
  rw [EmailLog.prune_old_entries] at h
  split at h
  · exact (List.mem_filter.mp h).1
  · exact h

/-- Core behaviour of `prune_old_entries` on an over-full table with unique
ids: exactly `MAX_EMAIL_LOGS` rows remain, and every deleted row's timestamp
is at most every retained row's timestamp. -/
theorem prune_spec (l : List EmailLog)
    (hid : (l.map (·.id)).Nodup) (hlen : MAX_EMAIL_LOGS < l.length) :
    (EmailLog.prune_old_entries l).length = MAX_EMAIL_LOGS ∧
    ∀ x ∈ EmailLog.prune_old_entries l, ∀ y ∈ l,
      y ∉ EmailLog.prune_old_entries l → y.timestamp ≤ x.timestamp ∧ y ≠ x := by
  have hperm : (List.insertionSort tsLe l).Perm l := List.perm_insertionSort tsLe l
  set s := List.insertionSort tsLe l with hs
  set k := l.length - MAX_EMAIL_LOGS with hk
  have hkle : k ≤ s.length := by rw [hperm.length_eq]; omega
  set dels := (s.take k).map (·.id) with hdels
  have hidmem : ∀ a ∈ s.take k, a.id ∈ dels := fun a ha => List.mem_map_of_mem _ ha
  have hsid : (s.map (·.id)).Nodup := (hperm.map (·.id)).nodup_iff.mpr hid
  have hsplit := List.take_append_drop k s
  have hnd : ((s.take k).map (·.id) ++ (s.drop k).map (·.id)).Nodup := by
    rw [← List.map_append, hsplit]; exact hsid
  have hdisj := (List.nodup_append.mp hnd).2.2
  have hchar : ∀ y ∈ l, (y.id ∈ dels ↔ y ∈ s.take k) := by
    intro y hy
    constructor
    · intro hidy
      rcases List.mem_map.mp hidy with ⟨b, hb, hbid⟩
      have hbl : b ∈ l := hperm.mem_iff.mp (List.mem_of_mem_take hb)
      have hby : b = y := List.inj_on_of_nodup_map hid hbl hy hbid
      exact hby ▸ hb
    · exact hidmem y
  have hfs : s.filter (fun e => decide (e.id ∈ dels)) = s.take k := by
    conv_lhs => rw [← hsplit]
    rw [List.filter_append]
    have h1 : (s.take k).filter (fun e => decide (e.id ∈ dels)) = s.take k :=
      List.filter_eq_self.mpr (fun a ha => decide_eq_true (hidmem a ha))
    have h2 : (s.drop k).filter (fun e => decide (e.id ∈ dels)) = [] := by
      refine List.filter_eq_nil_iff.mpr ?_
      intro a ha hpa
      have hmem : a.id ∈ dels := of_decide_eq_true hpa
      rcases List.mem_map.mp hmem with ⟨b, hb, hbid⟩
      have h3 : a.id ∈ (s.take k).map (·.id) := by
        rw [← hbid]; exact List.mem_map_of_mem _ hb
      exact hdisj h3 (List.mem_map_of_mem _ ha)
    rw [h1, h2, List.append_nil]
  have hlenfil : (l.filter (fun e => decide (e.id ∈ dels))).length = k := by
    have hpl := (hperm.filter (fun e => decide (e.id ∈ dels))).length_eq
    rw [← hpl, hfs, List.length_take]
    omega
  have hprune : EmailLog.prune_old_entries l
      = l.filter (fun e => decide (e.id ∉ dels)) := by
    rw [EmailLog.prune_old_entries]
    simp only [hs.symm, hk.symm, hdels.symm, if_pos hlen]
  have hfun : (fun e : EmailLog => decide (e.id ∉ dels))
      = (fun e : EmailLog => !decide (e.id ∈ dels)) := by
    funext e; exact decide_not
  constructor
  · rw [hprune, hfun, filter_not_length, hlenfil]
    omega
  · intro x hx y hy hyn
    rw [hprune] at hx hyn
    have hx2 := List.mem_filter.mp hx
    have hxid : x.id ∉ dels := of_decide_eq_true hx2.2
    have hyid : y.id ∈ dels := by
      by_contra hcon
      exact hyn (List.mem_filter.mpr ⟨hy, decide_eq_true hcon⟩)
    have hytake : y ∈ s.take k := (hchar y hy).mp hyid
    have hxdrop : x ∈ s.drop k := by
      have hxs : x ∈ s := hperm.mem_iff.mpr hx2.1
      rcases List.mem_append.mp (hsplit ▸ hxs) with h | h
      · exact absurd ((hchar x hx2.1).mpr h) hxid
      · exact h
    have hsort : s.Pairwise tsLe := List.sorted_insertionSort tsLe l
    have hpw := (List.pairwise_append.mp (hsplit ▸ hsort)).2.2
    refine ⟨hpw y hytake x hxdrop, ?_⟩
    intro he
    exact hyn (he ▸ hx)

/-- Amended C2: eviction after every insert keeps at most `MAX_EMAIL_LOGS`
entries — exactly the most recent ones by timestamp — and inserting into a
store that already holds 105 entries evicts the 6 oldest of the resulting
106 (not 5). -/
theorem create_prunes_to_most_recent (db : List EmailLog)
    (fn idate rem subj st : String) (err : Option String) (now : Nat)
    (hid : (db.map (·.id)).Nodup)
    (hts : (db.map (·.timestamp)).Nodup)
    (hnow : ∀ x ∈ db, x.timestamp ≠ now) :
    (EmailLog.create db fn idate rem subj st err now).1.length
        = min (db.length + 1) MAX_EMAIL_LOGS ∧
    ∀ x ∈ (EmailLog.create db fn idate rem subj st err now).1,
      ∀ y ∈ db ++ [(EmailLog.create db fn idate rem subj st err now).2],
        y ∉ (EmailLog.create db fn idate rem subj st err now).1 →
          y.timestamp < x.timestamp := by
  set e := (EmailLog.create db fn idate rem subj st err now).2 with he
  set l := db ++ [e] with hl
  have hcr : (EmailLog.create db fn idate rem subj st err now).1
      = EmailLog.prune_old_entries l := rfl
  have heid : e.id = (db.map (·.id)).foldr max 0 + 1 := rfl
  have hets : e.timestamp = now := rfl
  have hlid : (l.map (·.id)).Nodup := by
    rw [hl, List.map_append]
    refine List.nodup_append.mpr ⟨hid, List.nodup_singleton _, ?_⟩
    intro a ha hb
    simp only [List.map_cons, List.map_nil, List.mem_singleton] at hb
    have := le_foldr_max (db.map (·.id)) a ha
    omega
  have hlts : (l.map (·.timestamp)).Nodup := by
    rw [hl, List.map_append]
    refine List.nodup_append.mpr ⟨hts, List.nodup_singleton _, ?_⟩
    intro a ha hb
    simp only [List.map_cons, List.map_nil, List.mem_singleton] at hb
    rcases List.mem_map.mp ha with ⟨x, hx, hxa⟩
    exact hnow x hx (by rw [hxa, hb, hets])
  have hllen : l.length = db.length + 1 := by simp [hl]
  by_cases hbig : MAX_EMAIL_LOGS < l.length
  · obtain ⟨h1, h2⟩ := prune_spec l hlid hbig
    constructor
    · rw [hcr, h1]; omega
    · intro x hx y hy hyn
      rw [hcr] at hx hyn
      obtain ⟨hle, hne⟩ := h2 x hx y hy hyn
      have hxl : x ∈ l := mem_of_mem_prune hx
      have : y.timestamp ≠ x.timestamp := by
        intro hcon
        exact hne (List.inj_on_of_nodup_map hlts hy hxl hcon)
      omega
  · have hsame : EmailLog.prune_old_entries l = l := by
      rw [EmailLog.prune_old_entries]
      simp only [if_neg hbig]
    constructor
    · rw [hcr, hsame, hllen]; omega
    · intro x hx y hy hyn
      rw [hcr, hsame] at hyn
      exact absurd hy hyn

/-- Witness for the amended C2 theorem at a concrete input. -/
theorem create_prunes_to_most_recent_witness :
    (EmailLog.create dbW "b" "" "" "" "sent" none 2).1.length
        = min (dbW.length + 1) MAX_EMAIL_LOGS ∧
    ∀ x ∈ (EmailLog.create dbW "b" "" "" "" "sent" none 2).1,
      ∀ y ∈ dbW ++ [(EmailLog.create dbW "b" "" "" "" "sent" none 2).2],
        y ∉ (EmailLog.create dbW "b" "" "" "" "sent" none 2).1 →
          y.timestamp < x.timestamp :=
  create_prunes_to_most_recent dbW _ _ _ _ _ _ _
    (by decide) (by decide) (by decide)

set_option maxRecDepth 40000 in
/-- Counterexample to C2's parenthetical: inserting one entry into a store
of 105 evicts the 6 oldest, not 5 — in particular the sixth-oldest entry
(with exactly 5 older entries below it) is also evicted. -/
theorem insert_into_105_evicts_six_cex :
    db105.length = 105 ∧
    (db105.filter (fun y => decide (y.timestamp < entry6.timestamp))).length
        = 5 ∧
    entry6 ∈ db105 ∧
    (EmailLog.create db105 "f" "" "r" "s" "sent" none 1000).1.length = 100 ∧
    entry6 ∉ (EmailLog.create db105 "f" "" "r" "s" "sent" none 1000).1 := by
  decide

/-- C8: on both storage providers, `list_files` on a path that does not
exist returns the empty list without raising: the local variant checks
existence first, and the SMB variant catches the `listdir` exception that a
missing path produces. -/
theorem list_files_missing_path_empty :
    (∀ (world : String → Option (List String)) (path pattern : String),
      world path = none →
      LocalFileSystem_list_files world path pattern = []) ∧
    (∀ (listdir : String → Except String (List String))
        (host share path pattern e : String),
      listdir (smbPath host share path) = .error e →
      SMBFileSystem_list_files listdir host share path pattern = []) := by
  constructor
  · intro world path pattern h
    rw [LocalFileSystem_list_files, h]
  · intro listdir host share path pattern e h
    rw [SMBFileSystem_list_files, h]

/-- Witness for the C8 theorem at a concrete input. -/
theorem list_files_missing_path_empty_witness :
    LocalFileSystem_list_files (fun _ => none) "/missing" "RE-*.pdf" = [] ∧
    SMBFileSystem_list_files (fun _ => .error "STATUS_OBJECT_NAME_NOT_FOUND")
      "host" "share" "missing" "RE-*.pdf" = [] :=
  ⟨list_files_missing_path_empty.1 (fun _ => none) "/missing" "RE-*.pdf" rfl,
   list_files_missing_path_empty.2 (fun _ => .error "STATUS_OBJECT_NAME_NOT_FOUND")
     "host" "share" "missing" "RE-*.pdf" "STATUS_OBJECT_NAME_NOT_FOUND" rfl⟩

theorem process_single_dry (db : List EmailLog) (env : SingleEnv)
    (fp fn tf tmpl : String) (today : PDate) (fs sp ar : Bool) (now : Nat) :
    (process_single_invoice db env fp fn tf tmpl today fs sp true ar
      now).2.1 = db ∧
    (process_single_invoice db env fp fn tf tmpl today fs sp true ar
      now).2.2 = [] ∧
    (process_single_invoice db env fp fn tf tmpl today fs sp true ar
      now).1 ≠ .done .sent := by
  unfold process_single_invoice
  repeat' split
  all_goals try simp_all
  all_goals split <;> simp_all

theorem process_invoices_loop_dry (ctx : BatchCtx) (hdry : ctx.dry_run = true)
    (files : List FileItem) :
    ∀ res db effs trace,
    (process_invoices_loop ctx files res db effs trace).2.1 = db ∧
    (process_invoices_loop ctx files res db effs trace).2.2.1 = effs ∧
    (∀ t ∈ (process_invoices_loop ctx files res db effs trace).2.2.2,
      t ∈ trace ∨ t.outcome ≠ .sent) := by
  induction files with
  | nil => exact fun res db effs trace => ⟨rfl, rfl, fun t ht => Or.inl ht⟩
  | cons item rest ih =>
    intro res db effs trace
    simp only [process_invoices_loop, hdry, if_true]
    split
    · split
      · obtain ⟨ia, ib, ic⟩ := ih _ db effs _
        refine ⟨ia, ib, ?_⟩
        intro t ht
        rcases ic t ht with h | h
        · rcases List.mem_append.mp h with h2 | h2
          · exact Or.inl h2
          · simp only [List.mem_singleton] at h2
            subst h2
            exact Or.inr (by simp)
        · exact Or.inr h
      · obtain ⟨e1, e2, e3⟩ := process_single_dry db item.env item.file_path
          (osPathBasename item.file_path) ctx.target_folder ctx.email_template
          ctx.today ctx.force_send ctx.send_past_dates ctx.allow_resend ctx.now
        split
        · rw [e1, e2]
          simp only [List.append_nil]
          obtain ⟨ia, ib, ic⟩ := ih _ db effs _
          refine ⟨ia, ib, ?_⟩
          intro t ht
          rcases ic t ht with h | h
          · rcases List.mem_append.mp h with h2 | h2
            · exact Or.inl h2
            · simp only [List.mem_singleton] at h2
              subst h2
              exact Or.inr (by simp)
          · exact Or.inr h
        · rename_i o heq
          rw [e1, e2]
          simp only [List.append_nil]
          obtain ⟨ia, ib, ic⟩ := ih _ db effs _
          refine ⟨ia, ib, ?_⟩
          intro t ht
          rcases ic t ht with h | h
          · rcases List.mem_append.mp h with h2 | h2
            · exact Or.inl h2
            · simp only [List.mem_singleton] at h2
              subst h2
              exact Or.inr
                (fun hcon => e3 (heq.trans (congrArg SingleResult.done hcon)))
          · exact Or.inr h
    · exact ih res db effs trace

theorem process_single_dry_send_imp (db : List EmailLog) (env : SingleEnv)
    (fp fn tf tmpl : String) (today : PDate) (fs sp dr ar : Bool) (now : Nat) :
    (process_single_invoice db env fp fn tf tmpl today fs sp dr ar now).1
      = .done .dry_send → dr = true := by
  unfold process_single_invoice
  repeat' split
  all_goals try simp_all
  all_goals split <;> simp_all

theorem process_invoices_loop_counts (ctx : BatchCtx) (files : List FileItem) :
    ∀ res db effs trace,
    res.would_send = trace.countP sentOrDry →
    res.sent = trace.countP isSent →
    (ctx.dry_run = false → ∀ t ∈ trace, t.outcome ≠ .dry_send) →
    ((process_invoices_loop ctx files res db effs trace).1.would_send
        = (process_invoices_loop ctx files res db effs trace).2.2.2.countP sentOrDry ∧
      (process_invoices_loop ctx files res db effs trace).1.sent
        = (process_invoices_loop ctx files res db effs trace).2.2.2.countP isSent ∧
      (ctx.dry_run = false →
        ∀ t ∈ (process_invoices_loop ctx files res db effs trace).2.2.2,
          t.outcome ≠ .dry_send)) := by
  induction files with
  | nil => exact fun res db effs trace h1 h2 h3 => ⟨h1, h2, h3⟩
  | cons item rest ih =>
    intro res db effs trace h1 h2 h3
    simp only [process_invoices_loop]
    split
    · split
      · -- unexpected
        refine ih _ _ _ _ ?_ ?_ ?_
        · simp [List.countP_append, sentOrDry, h1]
        · simp [List.countP_append, isSent, h2]
        · intro hdr t ht
          rcases List.mem_append.mp ht with h | h
          · exact h3 hdr t h
          · simp only [List.mem_singleton] at h
            subst h
            simp
      · -- single invoice
        rename_i hequ
        rcases ho : (process_single_invoice db item.env item.file_path
            (osPathBasename item.file_path) ctx.target_folder
            ctx.email_template ctx.today ctx.force_send ctx.send_past_dates
            ctx.dry_run ctx.allow_resend ctx.now).1 with o | e
        swap
        · -- raised: the wrapper's except path
          refine ih _ _ _ _ ?_ ?_ ?_
          · simp [List.countP_append, sentOrDry, h1]
          · simp [List.countP_append, isSent, h2]
          · intro hdr t ht
            rcases List.mem_append.mp ht with h | h
            · exact h3 hdr t h
            · simp only [List.mem_singleton] at h
              subst h
              simp
        rcases o with _ | _ | _ | _
        · -- sent
          refine ih _ _ _ _ ?_ ?_ ?_
          · simp [List.countP_append, sentOrDry, h1, List.countP_cons]
          · simp [List.countP_append, isSent, h2, List.countP_cons]
          · intro hdr t ht
            rcases List.mem_append.mp ht with h | h
            · exact h3 hdr t h
            · simp only [List.mem_singleton] at h
              subst h
              simp
        · -- skipped
          refine ih _ _ _ _ ?_ ?_ ?_
          · simp [List.countP_append, sentOrDry, h1]
          · simp [List.countP_append, isSent, h2]
          · intro hdr t ht
            rcases List.mem_append.mp ht with h | h
            · exact h3 hdr t h
            · simp only [List.mem_singleton] at h
              subst h
              simp
        · -- dry_send
          refine ih _ _ _ _ ?_ ?_ ?_
          · simp [List.countP_append, sentOrDry, h1, List.countP_cons]
          · simp [List.countP_append, isSent, h2]
          · intro hdr t ht
            exact absurd (process_single_dry_send_imp db item.env
              item.file_path (osPathBasename item.file_path) ctx.target_folder
              ctx.email_template ctx.today ctx.force_send ctx.send_past_dates
              ctx.dry_run ctx.allow_resend ctx.now ho)
              (by rw [hdr]; exact Bool.false_ne_true)
        · -- failed
          refine ih _ _ _ _ ?_ ?_ ?_
          · simp [List.countP_append, sentOrDry, h1]
          · simp [List.countP_append, isSent, h2]
          · intro hdr t ht
            rcases List.mem_append.mp ht with h | h
            · exact h3 hdr t h
            · simp only [List.mem_singleton] at h
              subst h
              simp
    · exact ih _ _ _ _ h1 h2 h3

/-- C10: in every batch result, `would_send` equals the number of `sent`
outcomes plus the number of `dry_send` outcomes (each `sent` outcome
increments both `sent` and `would_send`), so in every non-dry-run batch
`would_send` equals `sent`. -/
theorem would_send_counts (db0 : List EmailLog) (ctx : BatchCtx) (ok : Bool)
    (lr : Except String (List FileItem)) :
    (process_invoices db0 ctx ok lr).1.would_send
      = (process_invoices db0 ctx ok lr).2.2.2.countP sentOrDry ∧
    (process_invoices db0 ctx ok lr).1.sent
      = (process_invoices db0 ctx ok lr).2.2.2.countP isSent ∧
    (ctx.dry_run = false →
      (process_invoices db0 ctx ok lr).1.would_send
        = (process_invoices db0 ctx ok lr).1.sent) := by
  unfold process_invoices
  split
  · exact ⟨rfl, rfl, fun _ => rfl⟩
  · split
    · exact ⟨rfl, rfl, fun _ => rfl⟩
    · split
      · exact ⟨rfl, rfl, fun _ => rfl⟩
      · dsimp only
        rename_i files _
        obtain ⟨w1, w2, w3⟩ := process_invoices_loop_counts ctx files
          ⟨0, 0, 0, 0, 0, []⟩ db0 [] [] rfl rfl
          (fun _ t ht => absurd ht (List.not_mem_nil t))
        refine ⟨w1, w2, ?_⟩
        intro hdr
        rw [w1, w2]
        refine List.countP_congr ?_
        intro t ht
        have h4 := w3 hdr t ht
        simp [sentOrDry, isSent, h4]

theorem process_invoices_loop_failed_errors (ctx : BatchCtx)
    (files : List FileItem) :
    ∀ res db effs trace,
    res.failed = trace.countP isFailed →
    res.errors = trace.filterMap traceErrMsg →
    (∀ t ∈ trace, t.unexpected ≠ none → t.outcome = .failed) →
    ((process_invoices_loop ctx files res db effs trace).1.failed
        = (process_invoices_loop ctx files res db effs trace).2.2.2.countP isFailed ∧
      (process_invoices_loop ctx files res db effs trace).1.errors
        = (process_invoices_loop ctx files res db effs trace).2.2.2.filterMap traceErrMsg ∧
      ∀ t ∈ (process_invoices_loop ctx files res db effs trace).2.2.2,
        t.unexpected ≠ none → t.outcome = .failed) := by
  induction files with
  | nil => exact fun res db effs trace h1 h2 h3 => ⟨h1, h2, h3⟩
  | cons item rest ih =>
    intro res db effs trace h1 h2 h3
    simp only [process_invoices_loop]
    split
    · split
      · refine ih _ _ _ _ ?_ ?_ ?_
        · simp [List.countP_append, isFailed, h1, List.countP_cons]
        · simp [List.filterMap_append, traceErrMsg, h2]
        · intro t ht
          rcases List.mem_append.mp ht with h | h
          · exact h3 t h
          · simp only [List.mem_singleton] at h
            subst h
            intro _
            rfl
      · rcases ho : (process_single_invoice db item.env item.file_path
            (osPathBasename item.file_path) ctx.target_folder
            ctx.email_template ctx.today ctx.force_send ctx.send_past_dates
            ctx.dry_run ctx.allow_resend ctx.now).1 with o | e
        swap
        · -- raised: the wrapper's except path appends to errors
          refine ih _ _ _ _ ?_ ?_ ?_
          · simp [List.countP_append, isFailed, List.countP_cons, h1]
          · simp [List.filterMap_append, traceErrMsg, h2]
          · intro t ht
            rcases List.mem_append.mp ht with h | h
            · exact h3 t h
            · simp only [List.mem_singleton] at h
              subst h
              intro _
              rfl
        rcases o with _ | _ | _ | _
        all_goals refine ih _ _ _ _ ?_ ?_ ?_
        any_goals simp [List.countP_append, isFailed, List.countP_cons, h1]
        any_goals simp [List.filterMap_append, traceErrMsg, h2]
        all_goals
          intro t ht
          rcases ht with h | h
          · exact h3 t h
          · subst h
            intro hu
            exact absurd rfl hu
    · exact ih _ _ _ _ h1 h2 h3

/-- Amended C5: every `failed` outcome increments the failed count, but an
explanatory message is appended to `errors` only for failures caught by the
wrapper's unexpected-exception handler; an ordinary `failed` outcome (read,
parse, recipient or send failure) contributes no entry to `errors`. -/
theorem failed_counted_errors_from_unexpected (db0 : List EmailLog)
    (ctx : BatchCtx) (ok : Bool) (lr : Except String (List FileItem)) :
    (process_invoices db0 ctx ok lr).1.failed
      = (process_invoices db0 ctx ok lr).2.2.2.countP isFailed ∧
    (process_invoices db0 ctx ok lr).1.errors
      = (process_invoices db0 ctx ok lr).2.2.2.filterMap traceErrMsg ∧
    ∀ t ∈ (process_invoices db0 ctx ok lr).2.2.2,
      t.unexpected ≠ none → t.outcome = .failed := by
  unfold process_invoices
  split
  · exact ⟨rfl, rfl, fun t ht => absurd ht (List.not_mem_nil t)⟩
  · split
    · exact ⟨rfl, rfl, fun t ht => absurd ht (List.not_mem_nil t)⟩
    · split
      · exact ⟨rfl, rfl, fun t ht => absurd ht (List.not_mem_nil t)⟩
      · dsimp only
        rename_i files _
        exact process_invoices_loop_failed_errors ctx files
          ⟨0, 0, 0, 0, 0, []⟩ db0 [] [] rfl rfl
          (fun t ht => absurd ht (List.not_mem_nil t))

/-- C3: a dry-run batch has zero persistent side effects — the persisted
log table equals the initial one (all writes rolled back; in fact no
per-file path writes at all), no effect is emitted (in particular the mail
transport is never invoked), and no per-file outcome is `sent`: each path
stops before sending (`dry_send`) or skips its log write. -/
theorem dry_run_zero_side_effects (db0 : List EmailLog) (ctx : BatchCtx)
    (ok : Bool) (lr : Except String (List FileItem))
    (hdry : ctx.dry_run = true) :
    (process_invoices db0 ctx ok lr).2.1 = db0 ∧
    (process_invoices db0 ctx ok lr).2.2.1 = [] ∧
    ∀ t ∈ (process_invoices db0 ctx ok lr).2.2.2, t.outcome ≠ .sent := by
  unfold process_invoices
  split
  · exact ⟨rfl, rfl, fun t ht => absurd ht (List.not_mem_nil t)⟩
  · split
    · exact ⟨rfl, rfl, fun t ht => absurd ht (List.not_mem_nil t)⟩
    · split
      · exact ⟨rfl, rfl, fun t ht => absurd ht (List.not_mem_nil t)⟩
      · dsimp only
        rename_i files _
        obtain ⟨d1, d2, d3⟩ := process_invoices_loop_dry ctx hdry files
          ⟨0, 0, 0, 0, 0, []⟩ db0 [] []
        refine ⟨by simp [hdry], d2, ?_⟩
        intro t ht
        rcases d3 t ht with h | h
        · exact absurd h (List.not_mem_nil t)
        · exact h

theorem create_fresh_id (db : List EmailLog)
    (fn idate rem subj st : String) (err : Option String) (now : Nat) :
    (EmailLog.create db fn idate rem subj st err now).2.id ∉ db.map (·.id) := by
  intro h
  have h2 := le_foldr_max (db.map (·.id)) _ h
  have h3 : (EmailLog.create db fn idate rem subj st err now).2.id
      = (db.map (·.id)).foldr max 0 + 1 := rfl
  omega

theorem mem_db_of_create (db : List EmailLog)
    (fn idate rem subj st : String) (err : Option String) (now : Nat)
    (x : EmailLog) (hx : x ∈ (EmailLog.create db fn idate rem subj st err now).1)
    (hid : x.id ∈ db.map (·.id)) : x ∈ db := by
  have h2 : x ∈ db ++ [(EmailLog.create db fn idate rem subj st err now).2] :=
    mem_of_mem_prune hx
  rcases List.mem_append.mp h2 with h | h
  · exact h
  · simp only [List.mem_singleton] at h
    subst h
    exact absurd hid (create_fresh_id db fn idate rem subj st err now)

theorem mem_db_of_create_update (db : List EmailLog)
    (fn idate rem subj msg : String) (now : Nat) (x : EmailLog)
    (hx : x ∈ (EmailLog.create db fn idate rem subj "sent" none now).1.map
      (fun y => if y.id = (EmailLog.create db fn idate rem subj "sent" none now).2.id
        then { y with status := "sent", error_message := some msg } else y))
    (hid : x.id ∈ db.map (·.id)) : x ∈ db := by
  rcases List.mem_map.mp hx with ⟨y, hy, hxy⟩
  by_cases hyid : y.id = (EmailLog.create db fn idate rem subj "sent" none now).2.id
  · rw [if_pos hyid] at hxy
    subst hxy
    rw [hyid] at hid
    exact absurd hid (create_fresh_id db fn idate rem subj "sent" none now)
  · rw [if_neg hyid] at hxy
    subst hxy
    exact mem_db_of_create db fn idate rem subj "sent" none now y hy hid

theorem process_single_no_mutation (db : List EmailLog) (env : SingleEnv)
    (fp fn tf tmpl : String) (today : PDate) (fs sp dr ar : Bool) (now : Nat)
    (x : EmailLog)
    (hx : x ∈ (process_single_invoice db env fp fn tf tmpl today fs sp dr ar
      now).2.1)
    (hid : x.id ∈ db.map (·.id)) : x ∈ db := by
  revert hx
  unfold process_single_invoice
  repeat' split
  all_goals try dsimp only
  all_goals try split
  all_goals intro hx
  all_goals
    first
    | exact hx
    | exact mem_db_of_create _ _ _ _ _ _ _ _ x hx hid
    | exact mem_db_of_create_update _ _ _ _ _ _ _ x hx hid

theorem process_single_send_success
    (db : List EmailLog) (env : SingleEnv) (fp fn tf tmpl : String)
    (today : PDate) (fs sp ar : Bool) (now : Nat)
    (content : String) (idata : InvoiceData) (remail subj body : String)
    (hread : env.readResult = .ok content)
    (hparse : env.parseResult = .ok idata)
    (hmail : idata.recipient_email = some remail)
    (hdedup : ar = true ∨ alreadySentQuery db fn remail = false)
    (hdate : fs = true ∨ ∃ idat, idata.invoice_date = some idat ∧
      PDate.ltb today idat = false ∧ (sp = true ∨ idat = today))
    (hrs : render_email_template (pyReplace fn ".pdf" "") idata fn today
      = .ok subj)
    (hrb : render_email_template tmpl idata fn today = .ok body)
    (hsend : env.sendResult = none) :
    process_single_invoice db env fp fn tf tmpl today fs sp false ar now
      = (let cr := EmailLog.create db fn idata.invoice_date_str remail subj
           "sent" none now
         let target_path :=
           if env.targetExists then
             osPathJoin tf ((splitext fn).1 ++ "_" ++ env.moveTs ++ (splitext fn).2)
           else osPathJoin tf fn
         let effs := [Effect.mailSend remail subj body fn,
           Effect.moveFile fp target_path]
         match env.moveResult with
         | some e =>
           (.done .sent,
            cr.1.map (fun x =>
              if x.id = cr.2.id then
                { x with
                  status := "sent",
                  error_message := some ("Datei nicht verschoben: " ++ e) }
              else x),
            effs)
         | none => (.done .sent, cr.1, effs)) := by
  have hded2 : ¬(¬ar ∧ alreadySentQuery db fn remail) := by
    rcases hdedup with h | h
    · intro hc
      exact hc.1 (by rw [h])
    · intro hc
      rw [h] at hc
      exact Bool.false_ne_true hc.2
  unfold process_single_invoice
  simp only [hread, hparse, hmail]
  rw [if_neg hded2]
  simp only [hrs, hrb, hsend, Bool.false_eq_true, if_false]
  rcases hdate with hf | ⟨idat, h1, h2, h3⟩
  · rw [if_pos hf]
  · by_cases hfs : fs = true
    · rw [if_pos hfs]
    · rw [if_neg hfs]
      simp only [h1]
      rw [if_neg (by simp [h2])]
      rw [if_neg (by
        intro hc
        rcases h3 with h | h
        · exact hc.1 h
        · exact hc.2 h)]

theorem osPathJoin_ne_of_longer (t b1 b2 : String)
    (h1 : ¬ b1.data.head? = some '/') (h2 : ¬ b2.data.head? = some '/')
    (hlen : b1.length < b2.length) : osPathJoin t b2 ≠ osPathJoin t b1 := by
  unfold osPathJoin
  rw [if_neg h1, if_neg h2]
  by_cases hT : t = "" ∨ t.data.getLast? = some '/'
  · rw [if_pos hT, if_pos hT]
    intro hc
    have := congrArg String.length hc
    simp only [String.length_append] at this
    omega
  · rw [if_neg hT, if_neg hT]
    intro hc
    have := congrArg String.length hc
    simp only [String.length_append] at this
    omega

theorem newName_longer (fn ts : String) :
    fn.length < ((splitext fn).1 ++ "_" ++ ts ++ (splitext fn).2).length := by
  simp only [String.length_append, splitext]
  show fn.length < (⟨fn.data.take (splitextPos fn.data)⟩ : String).length
    + "_".length + ts.length + (⟨fn.data.drop (splitextPos fn.data)⟩ : String).length
  have ht : (⟨fn.data.take (splitextPos fn.data)⟩ : String).length
      = min (splitextPos fn.data) fn.data.length := by
    show (fn.data.take (splitextPos fn.data)).length = _
    exact List.length_take _ _
  have hd : (⟨fn.data.drop (splitextPos fn.data)⟩ : String).length
      = fn.data.length - splitextPos fn.data := by
    show (fn.data.drop (splitextPos fn.data)).length = _
    exact List.length_drop _ _
  have hfn : fn.length = fn.data.length := rfl
  have hu : "_".length = 1 := rfl
  rw [ht, hd, hfn, hu]
  rcases Nat.le_total (splitextPos fn.data) fn.data.length with h | h
  · rw [Nat.min_eq_left h]
    omega
  · rw [Nat.min_eq_right h]
    omega

theorem newName_head_ne_slash (fn ts : String) (h : '/' ∉ fn.data) :
    ¬ ((splitext fn).1 ++ "_" ++ ts ++ (splitext fn).2).data.head? = some '/' := by
  simp only [String.data_append, splitext]
  show ¬ (fn.data.take (splitextPos fn.data) ++ "_".data ++ ts.data
    ++ fn.data.drop (splitextPos fn.data)).head? = some '/'
  cases hcase : fn.data.take (splitextPos fn.data) with
  | nil =>
    simp [hcase]
  | cons a tl =>
    have ha : a ∈ fn.data := by
      have : a ∈ fn.data.take (splitextPos fn.data) := by
        rw [hcase]; exact List.mem_cons_self a tl
      exact List.mem_of_mem_take this
    simp only [List.cons_append, List.head?_cons]
    intro hc
    have : a = '/' := by injection hc
    exact h (this ▸ ha)

theorem fn_head_ne_slash (fn : String) (h : '/' ∉ fn.data) :
    ¬ fn.data.head? = some '/' := by
  cases hcase : fn.data with
  | nil => simp
  | cons a tl =>
    simp only [List.head?_cons]
    intro hc
    have ha : a = '/' := by injection hc
    have : a ∈ fn.data := by rw [hcase]; exact List.mem_cons_self a tl
    exact h (ha ▸ this)

/-- Amended C1: when the per-file run reaches the send phase (which, with
the rendering code as it stands, requires both rendered templates to come
out non-raising), the send succeeds and the subsequent file move fails,
the already-created log entry is updated post-hoc by recording the move
error in `error_message` while its status is KEPT as `sent` (not flipped
to `failed`); and, in every branch, an entry that existed before the call
is never mutated. -/
theorem moveFail_keeps_sent_and_no_other_update :
    (∀ (db : List EmailLog) (env : SingleEnv) (fp fn tf tmpl : String)
        (today : PDate) (fs sp ar : Bool) (now : Nat)
        (content : String) (idata : InvoiceData)
        (remail subj body err : String),
      env.readResult = .ok content →
      env.parseResult = .ok idata →
      idata.recipient_email = some remail →
      (ar = true ∨ alreadySentQuery db fn remail = false) →
      (fs = true ∨ ∃ idat, idata.invoice_date = some idat ∧
        PDate.ltb today idat = false ∧ (sp = true ∨ idat = today)) →
      render_email_template (pyReplace fn ".pdf" "") idata fn today
        = .ok subj →
      render_email_template tmpl idata fn today = .ok body →
      env.sendResult = none →
      env.moveResult = some err →
      ((process_single_invoice db env fp fn tf tmpl today fs sp false ar
          now).1 = .done .sent ∧
       (process_single_invoice db env fp fn tf tmpl today fs sp false ar
          now).2.1
         = (EmailLog.create db fn idata.invoice_date_str remail subj
             "sent" none now).1.map (fun x =>
               if x.id = (EmailLog.create db fn idata.invoice_date_str remail
                   subj "sent" none now).2.id then
                 { x with
                   status := "sent",
                   error_message := some ("Datei nicht verschoben: " ++ err) }
               else x) ∧
       ∀ x ∈ (process_single_invoice db env fp fn tf tmpl today fs sp false ar
          now).2.1,
         x.id = (EmailLog.create db fn idata.invoice_date_str remail subj
             "sent" none now).2.id →
           x.status = "sent" ∧
           x.error_message = some ("Datei nicht verschoben: " ++ err))) ∧
    (∀ (db : List EmailLog) (env : SingleEnv) (fp fn tf tmpl : String)
        (today : PDate) (fs sp dr ar : Bool) (now : Nat),
      ∀ x ∈ (process_single_invoice db env fp fn tf tmpl today fs sp dr ar
        now).2.1, x.id ∈ db.map (·.id) → x ∈ db) := by
  constructor
  · intro db env fp fn tf tmpl today fs sp ar now content idata remail subj
      body err hread hparse hmail hdedup hdate hrs hrb hsend hmove
    rw [process_single_send_success db env fp fn tf tmpl today fs sp ar now
      content idata remail subj body hread hparse hmail hdedup hdate hrs hrb
      hsend]
    rw [hmove]
    refine ⟨rfl, rfl, ?_⟩
    intro x hx hxid
    rcases List.mem_map.mp hx with ⟨y, hy, hxy⟩
    by_cases hyid : y.id = (EmailLog.create db fn idata.invoice_date_str
        remail subj "sent" none now).2.id
    · rw [if_pos hyid] at hxy
      subst hxy
      constructor
      · rfl
      · rfl
    · rw [if_neg hyid] at hxy
      subst hxy
      exact absurd hxid hyid
  · intro db env fp fn tf tmpl today fs sp dr ar now x hx hid
    exact process_single_no_mutation db env fp fn tf tmpl today fs sp dr ar
      now x hx hid

/-- C6: when the send phase is reached (both templates render without
raising), the send succeeds and the target folder already contains a
same-named file, the move destination is the timestamp-disambiguated name
`base_ts.ext` — a path different from the plain destination, so nothing is
overwritten — the outcome is `sent` whether or not the move itself then
succeeds, and when the move does fail the move error is recorded on the
(still `sent`) log entry. -/
theorem duplicate_target_timestamp_suffix_and_sent :
    ∀ (db : List EmailLog) (env : SingleEnv) (fp fn tf tmpl : String)
      (today : PDate) (fs sp ar : Bool) (now : Nat)
      (content : String) (idata : InvoiceData) (remail subj body : String),
      env.readResult = .ok content →
      env.parseResult = .ok idata →
      idata.recipient_email = some remail →
      (ar = true ∨ alreadySentQuery db fn remail = false) →
      (fs = true ∨ ∃ idat, idata.invoice_date = some idat ∧
        PDate.ltb today idat = false ∧ (sp = true ∨ idat = today)) →
      render_email_template (pyReplace fn ".pdf" "") idata fn today
        = .ok subj →
      render_email_template tmpl idata fn today = .ok body →
      env.sendResult = none →
      env.targetExists = true →
      '/' ∉ fn.data →
      ((process_single_invoice db env fp fn tf tmpl today fs sp false ar
          now).1 = .done .sent ∧
       (process_single_invoice db env fp fn tf tmpl today fs sp false ar
          now).2.2
         = [.mailSend remail subj body fn,
            .moveFile fp (osPathJoin tf
              ((splitext fn).1 ++ "_" ++ env.moveTs ++ (splitext fn).2))] ∧
       osPathJoin tf ((splitext fn).1 ++ "_" ++ env.moveTs ++ (splitext fn).2)
         ≠ osPathJoin tf fn ∧
       ∀ err2, env.moveResult = some err2 →
         ∀ x ∈ (process_single_invoice db env fp fn tf tmpl today fs sp false
            ar now).2.1,
           x.id = (EmailLog.create db fn idata.invoice_date_str remail subj
               "sent" none now).2.id →
             x.status = "sent" ∧
             x.error_message = some ("Datei nicht verschoben: " ++ err2)) := by
  intro db env fp fn tf tmpl today fs sp ar now content idata remail subj
    body hread hparse hmail hdedup hdate hrs hrb hsend htarget hslash
  rw [process_single_send_success db env fp fn tf tmpl today fs sp ar now
    content idata remail subj body hread hparse hmail hdedup hdate hrs hrb
    hsend]
  rw [htarget]
  rcases hm : env.moveResult with _ | e2
  · refine ⟨rfl, rfl, ?_, ?_⟩
    · exact osPathJoin_ne_of_longer tf fn _ (fn_head_ne_slash fn hslash)
        (newName_head_ne_slash fn env.moveTs hslash)
        (newName_longer fn env.moveTs)
    · intro err2 hmove
      exact absurd hmove (by simp)
  · refine ⟨rfl, rfl, ?_, ?_⟩
    · exact osPathJoin_ne_of_longer tf fn _ (fn_head_ne_slash fn hslash)
        (newName_head_ne_slash fn env.moveTs hslash)
        (newName_longer fn env.moveTs)
    · intro err2 hmove
      have he2 : e2 = err2 := by injection hmove
      subst he2
      intro x hx hxid
      rcases List.mem_map.mp hx with ⟨y, hy, hxy⟩
      by_cases hyid : y.id = (EmailLog.create db fn idata.invoice_date_str
          remail subj "sent" none now).2.id
      · rw [if_pos hyid] at hxy
        subst hxy
        constructor
        · rfl
        · rfl
      · rw [if_neg hyid] at hxy
        subst hxy
        exact absurd hxid hyid

/-- Counterexample to C1: a send-success/move-failure run that reaches the
send phase (file named `".pdf"`, so the subject template is empty, and an
empty body template — the only way past the raising renderer). The log
entry's status stays `"sent"` with the move error recorded — it is not
flipped to `"failed"` as the claim states. -/
theorem moveFail_status_flip_cex :
    (process_single_invoice [] envSendOkMoveFail "/src/.pdf" ".pdf"
      "/tgt" "" ⟨2024, 1, 2⟩ false false false false 7).1 = .done .sent ∧
    (process_single_invoice [] envSendOkMoveFail "/src/.pdf" ".pdf"
      "/tgt" "" ⟨2024, 1, 2⟩ false false false false 7).2.1
      = [⟨1, 7, ".pdf", "20240102", "kunde@example.com", "", "sent",
          some "Datei nicht verschoben: disk full"⟩] ∧
    ("sent" : String) ≠ "failed" := by
  refine ⟨by decide, by decide, by decide⟩

/-- Witness for the amended C1 theorem at a concrete input. -/
theorem moveFail_keeps_sent_witness :
    (process_single_invoice [] envSendOkMoveFail "/src/.pdf" ".pdf"
      "/tgt" "" ⟨2024, 1, 2⟩ false false false false 7).1 = .done .sent ∧
    (process_single_invoice [] envSendOkMoveFail "/src/.pdf" ".pdf"
      "/tgt" "" ⟨2024, 1, 2⟩ false false false false 7).2.1
      = [⟨1, 7, ".pdf", "20240102", "kunde@example.com", "", "sent",
          some "Datei nicht verschoben: disk full"⟩] :=
  ⟨(moveFail_keeps_sent_and_no_other_update.1 [] envSendOkMoveFail
      "/src/.pdf" ".pdf" "/tgt" "" ⟨2024, 1, 2⟩ false false false
      7 "PDF" invToday "kunde@example.com" "" "" "disk full" rfl rfl rfl
      (Or.inr rfl) (Or.inr ⟨⟨2024, 1, 2⟩, rfl, rfl, Or.inr rfl⟩) rfl rfl rfl
      rfl).1,
   by decide⟩

/-- Witness for the C6 theorem at a concrete input. -/
theorem duplicate_target_sent_witness :
    (process_single_invoice [] envSendOkMoveFailDup "/src/.pdf"
      ".pdf" "/tgt" "" ⟨2024, 1, 2⟩ false false false false 7).1
      = .done .sent ∧
    (process_single_invoice [] envSendOkMoveFailDup "/src/.pdf"
      ".pdf" "/tgt" "" ⟨2024, 1, 2⟩ false false false false 7).2.2
      = [.mailSend "kunde@example.com" "" "" ".pdf",
         .moveFile "/src/.pdf" (osPathJoin "/tgt"
           ((splitext ".pdf").1 ++ "_" ++ envSendOkMoveFailDup.moveTs
             ++ (splitext ".pdf").2))] ∧
    osPathJoin "/tgt" ((splitext ".pdf").1 ++ "_"
        ++ envSendOkMoveFailDup.moveTs ++ (splitext ".pdf").2)
      ≠ osPathJoin "/tgt" ".pdf" ∧
    ∀ err2, envSendOkMoveFailDup.moveResult = some err2 →
      ∀ x ∈ (process_single_invoice [] envSendOkMoveFailDup "/src/.pdf"
          ".pdf" "/tgt" "" ⟨2024, 1, 2⟩ false false false false 7).2.1,
        x.id = (EmailLog.create [] ".pdf" invToday.invoice_date_str
            "kunde@example.com" "" "sent" none 7).2.id →
          x.status = "sent" ∧
          x.error_message = some ("Datei nicht verschoben: " ++ err2) :=
  duplicate_target_timestamp_suffix_and_sent [] envSendOkMoveFailDup
    "/src/.pdf" ".pdf" "/tgt" "" ⟨2024, 1, 2⟩ false false false 7
    "PDF" invToday "kunde@example.com" "" "" rfl rfl rfl (Or.inr rfl)
    (Or.inr ⟨⟨2024, 1, 2⟩, rfl, rfl, Or.inr rfl⟩) rfl rfl rfl rfl (by decide)

/-- Witness for the C3 theorem at a concrete input. -/
theorem dry_run_zero_side_effects_witness :
    (process_invoices [] ctxDry true (.ok [fileOk])).2.1 = [] ∧
    (process_invoices [] ctxDry true (.ok [fileOk])).2.2.1 = [] ∧
    ∀ t ∈ (process_invoices [] ctxDry true (.ok [fileOk])).2.2.2,
      t.outcome ≠ .sent :=
  dry_run_zero_side_effects [] ctxDry true (.ok [fileOk]) rfl

/-- Counterexample to C5: a file whose read fails gets terminal outcome
`failed` and increments the failed count, yet the batch result's `errors`
list stays empty. -/
theorem failed_outcome_not_in_errors_cex :
    (process_invoices [] ctxNorm true (.ok [fileReadFail])).1.failed = 1 ∧
    (process_invoices [] ctxNorm true (.ok [fileReadFail])).1.errors = [] ∧
    (process_invoices [] ctxNorm true (.ok [fileReadFail])).2.2.2
      = [⟨"RE-2.pdf", .failed, none⟩] := by
  refine ⟨by decide, by decide, by decide⟩

/-- Witness for the amended C5 theorem at a concrete input. -/
theorem failed_counted_witness :
    (process_invoices [] ctxNorm true (.ok [fileReadFail])).1.failed
      = (process_invoices [] ctxNorm true
          (.ok [fileReadFail])).2.2.2.countP isFailed ∧
    (process_invoices [] ctxNorm true (.ok [fileReadFail])).1.errors
      = (process_invoices [] ctxNorm true
          (.ok [fileReadFail])).2.2.2.filterMap traceErrMsg ∧
    ∀ t ∈ (process_invoices [] ctxNorm true (.ok [fileReadFail])).2.2.2,
      t.unexpected ≠ none → t.outcome = .failed :=
  failed_counted_errors_from_unexpected [] ctxNorm true (.ok [fileReadFail])

/-- Witness for the C10 theorem at a concrete input. -/
theorem would_send_counts_witness :
    (process_invoices [] ctxNorm true (.ok [fileOk])).1.would_send
      = (process_invoices [] ctxNorm true
          (.ok [fileOk])).2.2.2.countP sentOrDry ∧
    (process_invoices [] ctxNorm true (.ok [fileOk])).1.sent
      = (process_invoices [] ctxNorm true
          (.ok [fileOk])).2.2.2.countP isSent ∧
    (ctxNorm.dry_run = false →
      (process_invoices [] ctxNorm true (.ok [fileOk])).1.would_send
        = (process_invoices [] ctxNorm true (.ok [fileOk])).1.sent) :=
  would_send_counts [] ctxNorm true (.ok [fileOk])
